import Mathlib

/-!
Verification of the ark-rust local persistence layer against its
natural-language specification.

The development shallowly embeds the relevant parts of the Rust sources:

* `fs-storage/src/file_storage.rs` — the versioned file-backed key-value
  store (`FileStorage`): sync status, load/flush, timestamps, merge.
* `src/storage/file_storage.rs` — the legacy (version 2) plain-text
  file storage: line-based reader, version header check, drop handler.
* `src/id.rs` — the `ResourceId` fingerprint (CRC-32 over chunked input).

Machine integers are modelled as `Nat` with explicit `% 2 ^ 32` where
overflow matters; `SystemTime` values are modelled as `Nat` instants;
fallible Rust code returns `Option`/`Except`, and a Rust panic is a
distinct, explicitly modelled outcome.
-/

namespace ArkRust

/-! ## Sync status (fs-storage/src/file_storage.rs, `needs_syncing`) -/

/-- The four-way synchronization status `SyncStatus` of the store. -/
inductive SyncStatus where
  | DownSync
  | UpSync
  | FullSync
  | NoSync
deriving DecidableEq, Repr

/-- Embeds `FileStorage::needs_syncing` as the pure function of the three
timestamps it inspects: `self.modified`, `self.written_to_disk` and the
on-disk `file_updated` mtime.  The Rust code matches, in order, on the
boolean triple
`(modified > written_to_disk, written_to_disk == file_updated, file_updated > written_to_disk)`
with arms `(true, true, _) → DownSync`, `(true, false, _) → FullSync`,
`(_, _, true) → UpSync`, `_ → NoSync`. -/
def needs_syncing (modified written_to_disk file_updated : Nat) : SyncStatus :=
  match decide (modified > written_to_disk),
        written_to_disk == file_updated,
        decide (file_updated > written_to_disk) with
  | true, true, _ => SyncStatus.DownSync
  | true, false, _ => SyncStatus.FullSync
  | _, _, true => SyncStatus.UpSync
  | _, _, _ => SyncStatus.NoSync

/-- The status function exactly as the specification words it: `DownSync`
if `modified > flushed` and `flushed = mtime`; `FullSync` if
`modified > flushed` and `flushed ≠ mtime`; `UpSync` if `modified ≤ flushed`
and `mtime > flushed`; `NoSync` otherwise.  Used only to compare against
`needs_syncing`. -/
def spec_sync_status (modified flushed mtime : Nat) : SyncStatus :=
  if modified > flushed then
    (if flushed = mtime then SyncStatus.DownSync else SyncStatus.FullSync)
  else if mtime > flushed then SyncStatus.UpSync
  else SyncStatus.NoSync

theorem needs_syncing_eq_spec (m f t : Nat) :
    needs_syncing m f t = spec_sync_status m f t := by
  unfold needs_syncing spec_sync_status
  cases hb1 : decide (m > f) <;> cases hb2 : f == t <;> cases hb3 : decide (t > f)
  all_goals
    simp only [decide_eq_true_eq, decide_eq_false_iff_not, beq_iff_eq,
      beq_eq_false_iff_ne] at hb1 hb2 hb3
  all_goals simp only [if_pos, if_neg, hb1, hb2, hb3, ite_true, ite_false]
  all_goals try subst hb2
  all_goals try exact absurd hb3 (Nat.lt_irrefl _)
  all_goals simp [hb1, Nat.lt_irrefl]

/-- C1: the synchronization status is a pure function of the three
timestamps with exactly the specified four-way case split, and the
claimed transitions hold: from the canonical `NoSync` state (where
`flushed = mtime`), a set alone (advancing only `modified`) yields
`DownSync`; an external mtime advance alone yields `UpSync`; both
together yield `FullSync`; and after a flush or load (which set
`modified = flushed = mtime`) the status is `NoSync`. -/
theorem C1_sync_status_pure_function :
    (∀ m f t : Nat, needs_syncing m f t = spec_sync_status m f t) ∧
    (∀ f m' : Nat, f < m' → needs_syncing m' f f = SyncStatus.DownSync) ∧
    (∀ m f t' : Nat, m ≤ f → f < t' → needs_syncing m f t' = SyncStatus.UpSync) ∧
    (∀ f m' t' : Nat, f < m' → f < t' →
      needs_syncing m' f t' = SyncStatus.FullSync) ∧
    (∀ t : Nat, needs_syncing t t t = SyncStatus.NoSync) := by
  refine ⟨needs_syncing_eq_spec, ?_, ?_, ?_, ?_⟩
  · intro f m' h
    rw [needs_syncing_eq_spec]
    unfold spec_sync_status
    rw [if_pos h, if_pos rfl]
  · intro m f t' h1 h2
    rw [needs_syncing_eq_spec]
    unfold spec_sync_status
    rw [if_neg (by omega), if_pos h2]
  · intro f m' t' h1 h2
    rw [needs_syncing_eq_spec]
    unfold spec_sync_status
    rw [if_pos h1, if_neg (by omega)]
  · intro t
    rw [needs_syncing_eq_spec]
    unfold spec_sync_status
    rw [if_neg (Nat.lt_irrefl t), if_neg (Nat.lt_irrefl t)]

/-- Witness for C1 at concrete timestamps. -/
theorem C1_sync_status_pure_function_witness :
    needs_syncing 9 1 1 = spec_sync_status 9 1 1 ∧
    needs_syncing 5 3 3 = SyncStatus.DownSync ∧
    needs_syncing 2 3 7 = SyncStatus.UpSync ∧
    needs_syncing 5 3 7 = SyncStatus.FullSync ∧
    needs_syncing 4 4 4 = SyncStatus.NoSync :=
  ⟨C1_sync_status_pure_function.1 9 1 1,
   C1_sync_status_pure_function.2.1 3 5 (by decide),
   C1_sync_status_pure_function.2.2.1 2 3 7 (by decide) (by decide),
   C1_sync_status_pure_function.2.2.2.1 3 5 7 (by decide) (by decide),
   C1_sync_status_pure_function.2.2.2.2 4⟩

/-! ## Flush timestamp guard (fs-storage/src/file_storage.rs, `write_fs`) -/

/-- Embeds the timestamp bookkeeping at the end of `write_fs`
(lines 212–217): after the write, the code re-reads the file's mtime as
`new_timestamp`; if `new_timestamp == self.modified` it fails with
"Timestamp has not been updated", otherwise it assigns
`self.modified = new_timestamp; self.written_to_disk = self.modified`.
Returns `none` on failure and `some (modified, written_to_disk)` on
success.  The `written_to_disk` argument is carried to state the claim
about it, though the code never consults it here. -/
def write_fs_ts (modified written_to_disk new_timestamp : Nat) :
    Option (Nat × Nat) :=
  if new_timestamp = modified then none
  else some (new_timestamp, new_timestamp)

/-- The flush-guard condition exactly as the claim words it: flush fails
exactly when the new on-disk mtime equals the previous flushed
(`written_to_disk`) timestamp. -/
def claim_C4_guard (modified written_to_disk new_timestamp : Nat) : Prop :=
  write_fs_ts modified written_to_disk new_timestamp = none ↔
    new_timestamp = written_to_disk

instance (m f t : Nat) : Decidable (claim_C4_guard m f t) := by
  unfold claim_C4_guard; infer_instance

/-- C4 counterexample: with `modified = 5`, `written_to_disk = 3` and a
new on-disk mtime equal to the previous flushed value `3`, the code
succeeds (the guard compares against `modified`, not against
`written_to_disk`), refuting the claim that flush fails exactly when the
new mtime equals the previous flushed timestamp. -/
theorem C4_flush_guard_counterexample :
    ¬ claim_C4_guard 5 3 3 := by decide

/-- C4 (amended): flush compares the resulting on-disk modification time
against the previous `modified` timestamp (not the previous flushed
timestamp) and fails exactly when the two are equal; on success it sets
both `modified` and `written_to_disk` to the new on-disk modification
time. -/
theorem C4_flush_guard_amended (m f t : Nat) :
    (write_fs_ts m f t = none ↔ t = m) ∧
    (∀ a b : Nat, write_fs_ts m f t = some (a, b) → a = t ∧ b = t) := by
  constructor
  · unfold write_fs_ts
    by_cases h : t = m <;> simp [h]
  · intro a b hab
    unfold write_fs_ts at hab
    by_cases h : t = m
    · simp [h] at hab
    · simp [h] at hab
      exact ⟨hab.1.symm, hab.2.symm⟩

/-- Witness for C4 (amended) at concrete timestamps. -/
theorem C4_flush_guard_amended_witness :
    (write_fs_ts 5 3 5 = none ↔ (5 : Nat) = 5) ∧
    ((4 : Nat) = 4 ∧ (4 : Nat) = 4) :=
  ⟨(C4_flush_guard_amended 5 3 5).1,
   (C4_flush_guard_amended 5 3 4).2 4 4 (by decide)⟩

/-! ## Flush and on-disk content (fs-storage `write_fs`, legacy `write_file`)

Both store paths write with the same shape: `File::create(&self.path)`
(which truncates an existing file to empty, or creates it), then
serialization, then `write_all` of the serialized bytes through a
`BufWriter`.  There is no temporary file and no rename: the destination
itself is truncated before any byte of the new content is written. -/

/-- Where a flush run stops.  `failCreate`: `create_dir_all` or
`File::create` itself fails (the old file is untouched).  `failSerialize`:
`serde_json::to_string_pretty` fails after `File::create` already
truncated the file.  `failWriteAfter n`: the write fails after `n` bytes
of the payload reached the file.  `success`: everything completed. -/
inductive WritePlan where
  | failCreate
  | failSerialize
  | failWriteAfter (n : Nat)
  | success
deriving DecidableEq, Repr

/-- Embeds the effect of one `write_fs` (resp. legacy `write_file`) run on
the backing file's content.  `old` is the file's content before the call
(`none` = file absent); `payload` is the serialized bytes; the result is
the file content after the run paired with whether the call returned
success. -/
def write_fs_file (old : Option (List Nat)) (payload : List Nat) :
    WritePlan → Option (List Nat) × Bool
  | WritePlan.failCreate => (old, false)
  | WritePlan.failSerialize => (some [], false)
  | WritePlan.failWriteAfter n => (some (payload.take n), false)
  | WritePlan.success => (some payload, true)

/-- C2 counterexample: with previous content `[1]`, a serialization
failure (which in the code happens after `File::create` has already
truncated the file) leaves the file empty — the previous content is not
intact after a failed flush. -/
theorem C2_flush_no_partial_counterexample :
    (write_fs_file (some [1]) [2, 3] WritePlan.failSerialize).2 = false ∧
    (write_fs_file (some [1]) [2, 3] WritePlan.failSerialize).1 ≠ some [1] := by
  decide

/-- C2 (amended): because the destination file is truncated by
`File::create` before the new content is written, a failed flush leaves
either the previous content (only when creation itself failed) or a
prefix of the new content (possibly empty, in particular after a
serialization failure); the full new content is on disk exactly when the
write completed successfully. -/
theorem C2_flush_partial_file_amended (old : Option (List Nat))
    (payload : List Nat) (plan : WritePlan) :
    ((write_fs_file old payload plan).2 = true →
      (write_fs_file old payload plan).1 = some payload) ∧
    ((write_fs_file old payload plan).2 = false →
      (write_fs_file old payload plan).1 = old ∨
        ∃ n, (write_fs_file old payload plan).1 = some (payload.take n)) := by
  cases plan with
  | failCreate => exact ⟨by intro h; simp [write_fs_file] at h, fun _ => Or.inl rfl⟩
  | failSerialize =>
      refine ⟨by intro h; simp [write_fs_file] at h, fun _ => Or.inr ⟨0, ?_⟩⟩
      simp [write_fs_file]
  | failWriteAfter n =>
      exact ⟨by intro h; simp [write_fs_file] at h, fun _ => Or.inr ⟨n, rfl⟩⟩
  | success => exact ⟨fun _ => rfl, by intro h; simp [write_fs_file] at h⟩

/-- Witness for C2 (amended) at a concrete store state. -/
theorem C2_flush_partial_file_amended_witness :
    (write_fs_file (some [1]) [2, 3] WritePlan.success).1 = some [2, 3] ∧
    ((write_fs_file (some [1]) [2, 3] (WritePlan.failWriteAfter 1)).1 =
        some [1] ∨
      ∃ n, (write_fs_file (some [1]) [2, 3] (WritePlan.failWriteAfter 1)).1 =
        some ([2, 3].take n)) :=
  ⟨(C2_flush_partial_file_amended (some [1]) [2, 3] WritePlan.success).1 rfl,
   (C2_flush_partial_file_amended (some [1]) [2, 3]
      (WritePlan.failWriteAfter 1)).2 rfl⟩

/-! ## Versioned envelope and migration (fs-storage `load_fs_data`, `write_fs`)

`FileStorageData { version: i32, entries }` is the persisted envelope;
`STORAGE_VERSION = 3` is the current version.  `load_fs_data` first sniffs
the raw content for the legacy `"version: 2"` prefix and routes through
the legacy reader (tagging the result with `version = 2`); otherwise it
parses the JSON envelope and rejects any `version ≠ 3`.  `write_fs`
serializes `self.data` verbatim — including its `version` field. -/

/-- Current storage version of the fs-storage crate (`STORAGE_VERSION = 3`). -/
def STORAGE_VERSION : Int := 3

/-- The persisted envelope `FileStorageData`: a version tag plus entries.
The entry map is abstracted to a type parameter `E`; the claims about the
version gate do not depend on its shape. -/
structure FileStorageData (E : Type) where
  version : Int
  entries : E
deriving DecidableEq, Repr

/-- On-disk content of the backing file as `load_fs_data` discriminates
it: absent; a file whose raw content starts with `"version: 2"` (with a
flag telling whether the legacy reader `read_version_2_fs` succeeds on
it); or a JSON envelope with a declared version.  `read_version_2_fs`
itself lives in `fs-storage/src/utils.rs`, outside the provided sources;
its success/failure is therefore abstracted into the `parses` flag. -/
inductive DiskFile (E : Type) where
  | absent
  | legacyV2 (entries : E) (parses : Bool)
  | jsonFile (version : Int) (entries : E)
deriving DecidableEq, Repr

/-- Load errors of `load_fs_data`, by the code path that produces them. -/
inductive LoadErr where
  | fileMissing
  | legacyParseFailed
  | versionMismatch (expected got : Int)
deriving DecidableEq, Repr

/-- Embeds `load_fs_data` (fs-storage/src/file_storage.rs, lines 86–137):
missing file is an error; content starting with `"version: 2"` goes
through the legacy reader and, on success, is returned tagged with
`version = 2`; otherwise the JSON envelope is parsed and any version
other than `STORAGE_VERSION` is a version-mismatch error. -/
def load_fs_data {E : Type} : DiskFile E → Except LoadErr (FileStorageData E)
  | DiskFile.absent => Except.error LoadErr.fileMissing
  | DiskFile.legacyV2 entries true => Except.ok ⟨2, entries⟩
  | DiskFile.legacyV2 _ false => Except.error LoadErr.legacyParseFailed
  | DiskFile.jsonFile v entries =>
      if v = STORAGE_VERSION then Except.ok ⟨v, entries⟩
      else Except.error (LoadErr.versionMismatch STORAGE_VERSION v)

/-- Embeds the content part of `write_fs` (lines 199–225): the in-memory
`self.data` — whose `version` field is whatever `load_fs_data` put there —
is serialized verbatim as the JSON envelope. -/
def write_fs_disk {E : Type} (data : FileStorageData E) : DiskFile E :=
  DiskFile.jsonFile data.version data.entries

/-- C3 failing-trace evaluation: loading a recognized legacy version-2
file succeeds and yields an envelope tagged `version = 2`; flushing that
envelope writes a JSON file that still declares version 2 (not the
current version 3); and the subsequent load of that file fails with a
version mismatch — contradicting the claim that the flushed file is in
the current format and loads successfully. -/
theorem C3_migration_bug_trace :
    load_fs_data (DiskFile.legacyV2 (0 : Nat) true) = Except.ok ⟨2, 0⟩ ∧
    write_fs_disk (FileStorageData.mk 2 (0 : Nat)) = DiskFile.jsonFile 2 0 ∧
    load_fs_data (write_fs_disk (FileStorageData.mk 2 (0 : Nat))) =
      Except.error (LoadErr.versionMismatch 3 2) :=
  ⟨rfl, rfl, rfl⟩

/-! ## Provenance of `written_to_disk` (fs-storage `new`, `read_fs`, `write_fs`)

To state where each timestamp value comes from, instants are tagged with
their source: the wall clock (`SystemTime::now()`) or a
filesystem-reported modification time (`fs::metadata(..).modified()`). -/

/-- Source of a timestamp value. -/
inductive TimeSource where
  | wallClock
  | fsMtime
deriving DecidableEq, Repr

/-- A timestamp instant tagged with its source. -/
structure TaggedTime where
  val : Nat
  src : TimeSource
deriving DecidableEq, Repr

/-- The two timestamp fields of a `FileStorage`. -/
structure StorageTimes where
  modified : TaggedTime
  written_to_disk : TaggedTime
deriving DecidableEq, Repr

/-- Embeds the timestamp effect of `FileStorage::new` (lines 66–84):
`let time = SystemTime::now()` initializes both `modified` and
`written_to_disk` from the wall clock; then, if the path exists and the
best-effort `read_fs` succeeds reading the file's mtime, both fields are
overwritten with that mtime (`readMtime = some mt`).  If the path does
not exist, or `read_fs` fails, the wall-clock initialization remains
(`readMtime = none`). -/
def new_storage_times (now : Nat) (readMtime : Option Nat) : StorageTimes :=
  match readMtime with
  | none => ⟨⟨now, TimeSource.wallClock⟩, ⟨now, TimeSource.wallClock⟩⟩
  | some mt => ⟨⟨mt, TimeSource.fsMtime⟩, ⟨mt, TimeSource.fsMtime⟩⟩

/-- Embeds the timestamp effect of `set` (and identically `remove`):
`self.modified = SystemTime::now()`, `written_to_disk` untouched. -/
def set_times (s : StorageTimes) (now : Nat) : StorageTimes :=
  ⟨⟨now, TimeSource.wallClock⟩, s.written_to_disk⟩

/-- Embeds the timestamp effect of `merge_from` (line 248):
`self.modified = SystemTime::now()`, `written_to_disk` untouched. -/
def merge_from_times (s : StorageTimes) (now : Nat) : StorageTimes :=
  ⟨⟨now, TimeSource.wallClock⟩, s.written_to_disk⟩

/-- Embeds the timestamp effect of a successful `read_fs` (lines 187–196):
both fields are set to the file's reported mtime. -/
def read_fs_times (mtime : Nat) : StorageTimes :=
  ⟨⟨mtime, TimeSource.fsMtime⟩, ⟨mtime, TimeSource.fsMtime⟩⟩

/-- Embeds the timestamp effect of `write_fs` (lines 212–217): with the
new on-disk mtime `newMtime`, fail if it equals `self.modified`'s value,
else set both fields to the mtime. -/
def write_fs_times (s : StorageTimes) (newMtime : Nat) : Option StorageTimes :=
  if newMtime = s.modified.val then none
  else some ⟨⟨newMtime, TimeSource.fsMtime⟩, ⟨newMtime, TimeSource.fsMtime⟩⟩

/-- C5 counterexample: at construction over a non-existent (or unreadable)
path, `written_to_disk` is assigned the wall-clock value
`SystemTime::now()` — refuting the claim that `written_to_disk` is only
ever assigned filesystem-reported modification times, including at
construction. -/
theorem C5_flushed_provenance_counterexample :
    (new_storage_times 5 none).written_to_disk =
      TaggedTime.mk 5 TimeSource.wallClock := by
  decide

/-- C5 (amended): at construction `written_to_disk` starts from the wall
clock (and keeps that value when no backing file is read); in every other
operation the invariant holds: construction that reads an existing file,
`read_fs` and a successful `write_fs` assign `written_to_disk` from a
filesystem-reported mtime, and `set`, `remove` and `merge_from` leave it
unchanged. -/
theorem C5_flushed_provenance_amended (s : StorageTimes)
    (now mt : Nat) :
    (new_storage_times now (some mt)).written_to_disk.src =
      TimeSource.fsMtime ∧
    (set_times s now).written_to_disk = s.written_to_disk ∧
    (merge_from_times s now).written_to_disk = s.written_to_disk ∧
    (read_fs_times mt).written_to_disk.src = TimeSource.fsMtime ∧
    (∀ s', write_fs_times s mt = some s' →
      s'.written_to_disk.src = TimeSource.fsMtime) := by
  refine ⟨rfl, rfl, rfl, rfl, ?_⟩
  intro s' h
  unfold write_fs_times at h
  by_cases hc : mt = s.modified.val
  · simp [hc] at h
  · simp [hc] at h
    rw [← h]

/-- Witness for C5 (amended) at a concrete store state. -/
theorem C5_flushed_provenance_amended_witness :
    (new_storage_times 7 (some 4)).written_to_disk.src =
      TimeSource.fsMtime ∧
    (set_times (new_storage_times 7 (some 4)) 9).written_to_disk =
      (new_storage_times 7 (some 4)).written_to_disk ∧
    (merge_from_times (new_storage_times 7 (some 4)) 9).written_to_disk =
      (new_storage_times 7 (some 4)).written_to_disk ∧
    (read_fs_times 4).written_to_disk.src = TimeSource.fsMtime ∧
    (StorageTimes.mk ⟨9, TimeSource.fsMtime⟩
        ⟨9, TimeSource.fsMtime⟩).written_to_disk.src = TimeSource.fsMtime :=
  ⟨(C5_flushed_provenance_amended (new_storage_times 7 (some 4)) 9 4).1,
   (C5_flushed_provenance_amended (new_storage_times 7 (some 4)) 9 4).2.1,
   (C5_flushed_provenance_amended (new_storage_times 7 (some 4)) 9 4).2.2.1,
   (C5_flushed_provenance_amended (new_storage_times 7 (some 4)) 9 4).2.2.2.1,
   (C5_flushed_provenance_amended (new_storage_times 7 (some 4)) 4 9).2.2.2.2
     ⟨⟨9, TimeSource.fsMtime⟩, ⟨9, TimeSource.fsMtime⟩⟩ (by decide)⟩

/-! ## Legacy plain-text reader (src/storage/file_storage.rs)

The legacy `FileStorage` (STORAGE_VERSION = 2) reads a file as lines:
first line `"version "` + integer, then `key:value` lines.  A Rust panic
(out-of-bounds index, `unwrap` on a parse failure) is modelled as the
distinct outcome `panicked`. -/

/-- `STORAGE_VERSION_PREFIX` of the legacy storage: the header line starts
with this string.  Text is modelled as `List Char` so that all string
operations are structurally recursive. -/
def VERSION_HEADER : List Char := "version ".toList

/-- Errors of the legacy reader, named by the code path producing them.
`formatNewerThanApp` is returned when the parsed version is *less* than 2
and `formatOlderThanApp` when it is greater (the messages in the source
are worded this way round). -/
inductive LegacyErr where
  | missingHeader
  | unknownVersion
  | formatNewerThanApp
  | formatOlderThanApp
  | keyParseFailed
  | valueParseFailed
deriving DecidableEq, Repr

/-- Outcome of `verify_version`. -/
inductive VerifyOutcome where
  | ok
  | err (e : LegacyErr)
  | panicked
deriving DecidableEq, Repr

/-- Splits a character list on a separator character, mirroring Rust's
`str::split`: the result always has one more element than the number of
separator occurrences (so `""` splits to `[""]` and `":"` to
`["", ""]`). -/
def splitSep (sep : Char) : List Char → List (List Char)
  | [] => [[]]
  | c :: rest =>
    if c = sep then [] :: splitSep sep rest
    else
      match splitSep sep rest with
      | [] => [[c]]
      | part :: parts => (c :: part) :: parts

/-- The decimal value of a digit run, most significant first. -/
def digitsVal (s : List Char) : Nat :=
  s.foldl (fun acc c => acc * 10 + (c.toNat - 48)) 0

/-- Rust `i32::from_str`: an optional sign, then at least one ASCII
digit, and the value must fit in `i32`. -/
def parse_i32 (s : List Char) : Option Int :=
  let signed : Bool × List Char :=
    match s with
    | '+' :: rest => (false, rest)
    | '-' :: rest => (true, rest)
    | _ => (false, s)
  let core := signed.2
  if core.isEmpty || !(core.all Char.isDigit) then none
  else
    let v : Int :=
      if signed.1 then -(digitsVal core : Int) else (digitsVal core : Int)
    if -(2 ^ 31) ≤ v ∧ v < 2 ^ 31 then some v else none

/-- Embeds `verify_version` (src/storage/file_storage.rs, lines 153–176):
a header not starting with `"version "` is an unknown-version error; the
remainder is parsed as `i32` with `.unwrap()` — a parse failure there is
a panic; version 2 is accepted and any other parsed version is an
error. -/
def verify_version (header : List Char) : VerifyOutcome :=
  if !(VERSION_HEADER.isPrefixOf header) then
    VerifyOutcome.err LegacyErr.unknownVersion
  else
    match parse_i32 (header.drop VERSION_HEADER.length) with
    | none => VerifyOutcome.panicked
    | some v =>
        if v = 2 then VerifyOutcome.ok
        else if v < 2 then VerifyOutcome.err LegacyErr.formatNewerThanApp
        else VerifyOutcome.err LegacyErr.formatOlderThanApp

/-- Assoc-list embedding of map insertion (`HashMap::insert` /
`BTreeMap::insert`): replace the value of an existing key, else add the
pair. -/
def insertA {κ ν : Type} [DecidableEq κ] (k : κ) (v : ν) :
    List (κ × ν) → List (κ × ν)
  | [] => [(k, v)]
  | (k', v') :: rest =>
      if k' = k then (k, v) :: rest else (k', v') :: insertA k v rest

/-- Outcome of the legacy reader. -/
inductive LegacyOutcome (κ ν : Type) where
  | ok (pairs : List (κ × ν))
  | err (e : LegacyErr)
  | panicked
deriving DecidableEq, Repr

/-- The per-line loop of `read_file_from_disk` (lines 89–100): empty
lines are skipped; each other line is split on every `':'`; the key is
parsed from `parts[0]` (its typed failure propagates first, matching
Rust's evaluation order), then `parts[1]` is indexed — a panic when the
line contains no separator — and the value parsed from it; the pair is
inserted into the accumulated map.  Note `parts[1]` is the segment
between the first and second separator, not the whole remainder of the
line. -/
def read_lines_loop {κ ν : Type} [DecidableEq κ]
    (pk : List Char → Option κ) (pv : List Char → Option ν) :
    List (List Char) → List (κ × ν) → LegacyOutcome κ ν
  | [], acc => LegacyOutcome.ok acc
  | line :: rest, acc =>
    if line.isEmpty then read_lines_loop pk pv rest acc
    else
      match splitSep ':' line with
      | p0 :: p1 :: _ =>
          match pk p0 with
          | none => LegacyOutcome.err LegacyErr.keyParseFailed
          | some k =>
              match pv p1 with
              | none => LegacyOutcome.err LegacyErr.valueParseFailed
              | some v => read_lines_loop pk pv rest (insertA k v acc)
      | [p0] =>
          match pk p0 with
          | none => LegacyOutcome.err LegacyErr.keyParseFailed
          | some _ => LegacyOutcome.panicked
      | [] => LegacyOutcome.panicked

/-- Embeds `read_file_from_disk` (lines 73–110) over the file's lines: an
empty file (no first line) is the missing-header error; otherwise the
header is checked by `verify_version` and the remaining lines are parsed
by the loop.  I/O errors while iterating lines are outside this model
(the input is the list of decoded lines). -/
def read_file_from_disk {κ ν : Type} [DecidableEq κ]
    (pk : List Char → Option κ) (pv : List Char → Option ν) :
    List (List Char) → LegacyOutcome κ ν
  | [] => LegacyOutcome.err LegacyErr.missingHeader
  | header :: rest =>
    match verify_version header with
    | VerifyOutcome.panicked => LegacyOutcome.panicked
    | VerifyOutcome.err e => LegacyOutcome.err e
    | VerifyOutcome.ok => read_lines_loop pk pv rest []

/-- C6 failing-input evaluation (with identity key/value parsing): a line
with no separator makes the reader panic (`parts[1]` is out of bounds)
rather than return a typed failure; a non-numeric version header panics
(`unwrap`); a first line that is not a version header fails with the
unknown-version error, not the missing-header error (which is reserved
for an empty file); and the value taken from a line with several
separators is only the segment before the second separator, not the
whole remainder. -/
theorem C6_legacy_reader_divergences :
    read_file_from_disk (fun s => some s) (fun s => some s)
      ["version 2".toList, "key1".toList] = LegacyOutcome.panicked ∧
    read_file_from_disk (fun s => some s) (fun s => some s)
      ["version abc".toList] = LegacyOutcome.panicked ∧
    read_file_from_disk (fun s => some s) (fun s => some s)
      ["bogus".toList] = LegacyOutcome.err LegacyErr.unknownVersion ∧
    read_file_from_disk (fun s => some s) (fun s => some s)
      ([] : List (List Char)) = LegacyOutcome.err LegacyErr.missingHeader ∧
    read_file_from_disk (fun s => some s) (fun s => some s)
      ["version 2".toList, "k:v1:v2".toList] =
        LegacyOutcome.ok [("k".toList, "v1".toList)] := by
  refine ⟨?_, ?_, ?_, ?_, ?_⟩ <;> decide

/-! ## Fingerprint (src/id.rs, `ResourceId::compute_reader` / `compute_bytes`)

The fingerprint is a CRC-32 (IEEE, as computed by the `crc32fast` crate)
over the content, streamed through a buffer of `BUFFER_CAPACITY` bytes,
paired with the declared size.  Bytes are `Nat` values; the running
`bytes_read: u32` counter is a `Nat` reduced `% 2 ^ 32` (release-mode
wrapping; in debug builds the overflowing add would itself panic, which
only reinforces the panic results below).  A panic is modelled as
`none`. -/

/-- The reflected CRC-32 (IEEE) generator polynomial. -/
def CRC32_POLY : Nat := 0xEDB88320

/-- One bit-round of the reflected CRC-32. -/
def crc32_round (c : Nat) : Nat :=
  if c % 2 = 1 then (c / 2) ^^^ CRC32_POLY else c / 2

/-- Feed one byte into the CRC-32 accumulator (8 bit-rounds). -/
def crc32_byte (crc b : Nat) : Nat :=
  (List.range 8).foldl (fun c _ => crc32_round c) (crc ^^^ (b % 256))

/-- `Hasher::update`: feed a byte slice into the accumulator. -/
def crc32_update (crc : Nat) (bytes : List Nat) : Nat :=
  bytes.foldl crc32_byte crc

/-- `Hasher::new()` + updates + `finalize()`: the CRC-32 of a byte
sequence. -/
def crc32 (bytes : List Nat) : Nat :=
  crc32_update 0xFFFFFFFF bytes ^^^ 0xFFFFFFFF

/-- `ResourceId { data_size: u64, crc32: u32 }`. -/
structure ResourceId where
  data_size : Nat
  crc32 : Nat
deriving DecidableEq, Repr

/-- First power of two exceeding `u32`. -/
def U32_LIMIT : Nat := 2 ^ 32

/-- `BUFFER_CAPACITY` of the streaming reader: 512 KiB. -/
def BUFFER_CAPACITY : Nat := 512 * 1024

/-- The `loop` of `compute_reader` (src/id.rs, lines 58–70): each
`fill_buf` result is one chunk; an empty chunk ends the loop; the chunk
is hashed and consumed, and its length is added to the `u32` counter
(`u32::try_from` panics — `none` — on a chunk of length `≥ 2^32`;
the add wraps `% 2^32`).  Returns the accumulator and counter. -/
def compute_loop (hash bytesRead : Nat) :
    List (List Nat) → Option (Nat × Nat)
  | [] => some (hash, bytesRead)
  | c :: cs =>
    if c.length = 0 then some (hash, bytesRead)
    else if c.length < U32_LIMIT then
      compute_loop (crc32_update hash c) ((bytesRead + c.length) % U32_LIMIT) cs
    else none

/-- Embeds `ResourceId::compute_reader` (src/id.rs, lines 45–81): run the
loop over the chunks the reader yields, then finalize; the declared
`data_size: u64` is converted to `u32` with `.unwrap()` — a panic
(`none`) when `data_size ≥ 2^32` — and `assert_eq!` against the counter
— a panic when they differ.  On success the fingerprint pairs the
declared size with the finalized checksum. -/
def compute_reader (data_size : Nat) (chunks : List (List Nat)) :
    Option ResourceId :=
  match compute_loop 0xFFFFFFFF 0 chunks with
  | none => none
  | some (h, br) =>
    if U32_LIMIT ≤ data_size then none
    else if br = data_size then
      some (ResourceId.mk data_size (h ^^^ 0xFFFFFFFF))
    else none

/-- Cuts a list into successive chunks of at most `cap` elements (the
chunks a `BufReader` with capacity `cap` yields over an in-memory slice),
using the list length as structural fuel. -/
def chunkListF {α : Type} (cap : Nat) : Nat → List α → List (List α)
  | 0, _ => []
  | _ + 1, [] => []
  | fuel + 1, a :: rest =>
      (a :: rest.take (cap - 1)) :: chunkListF cap fuel (rest.drop (cap - 1))

/-- The chunks a capacity-`cap` buffered reader yields over `l`. -/
def chunkList {α : Type} (cap : Nat) (l : List α) : List (List α) :=
  chunkListF cap l.length l

/-- Embeds `ResourceId::compute_bytes` (src/id.rs, lines 38–43):
`data_size` is the byte length (the `usize → u64` conversion cannot fail
on 64-bit), and the reader streams the slice through a
`BUFFER_CAPACITY`-sized buffer. -/
def compute_bytes (bytes : List Nat) : Option ResourceId :=
  compute_reader bytes.length (chunkList BUFFER_CAPACITY bytes)

/-- `chunks` is a possible sequence of `fill_buf` results for `content`:
non-empty chunks concatenating to the content. -/
def validChunking (chunks : List (List Nat)) (content : List Nat) : Prop :=
  chunks.flatten = content ∧ ∀ c ∈ chunks, c ≠ []

/-- The loop computes the running hash and count of the concatenated
chunks, provided the total (starting from `bytesRead`) stays below
`2 ^ 32`. -/
theorem compute_loop_eq (chunks : List (List Nat)) (hash bytesRead : Nat)
    (hne : ∀ c ∈ chunks, c ≠ [])
    (hbound : bytesRead + chunks.flatten.length < U32_LIMIT) :
    compute_loop hash bytesRead chunks =
      some (crc32_update hash chunks.flatten,
        bytesRead + chunks.flatten.length) := by
  induction chunks generalizing hash bytesRead with
  | nil => simp [compute_loop, crc32_update]
  | cons c cs ih =>
    have hc : c ≠ [] := hne c (List.mem_cons_self c cs)
    have hlen0 : c.length ≠ 0 := fun h => hc (List.length_eq_zero.mp h)
    have hjoin : (c :: cs).flatten = c ++ cs.flatten := List.flatten_cons
    have hlenj : (c :: cs).flatten.length = c.length + cs.flatten.length := by
      rw [hjoin, List.length_append]
    rw [hlenj] at hbound
    have hclt : c.length < U32_LIMIT := by omega
    have hmod : (bytesRead + c.length) % U32_LIMIT = bytesRead + c.length :=
      Nat.mod_eq_of_lt (by omega)
    have hrec := ih (crc32_update hash c) (bytesRead + c.length)
      (fun d hd => hne d (List.mem_cons_of_mem c hd)) (by omega)
    rw [compute_loop, if_neg hlen0, if_pos hclt, hmod, hrec, hjoin]
    simp [crc32_update, List.foldl_append, List.length_append, Nat.add_assoc]

/-- On a valid chunking of content shorter than `2 ^ 32` bytes, declared
at its true length, the reader returns the fingerprint of the
concatenated content. -/
theorem compute_reader_valid (content : List Nat) (chunks : List (List Nat))
    (hv : validChunking chunks content) (hlen : content.length < U32_LIMIT) :
    compute_reader content.length chunks =
      some (ResourceId.mk content.length (crc32 content)) := by
  obtain ⟨hjoin, hne⟩ := hv
  unfold compute_reader
  rw [compute_loop_eq chunks 0xFFFFFFFF 0 hne (by rw [hjoin]; omega)]
  dsimp only
  rw [hjoin, Nat.zero_add]
  rw [if_neg (by omega), if_pos rfl]
  rfl

/-- A capacity-`cap` chunking, `cap > 0`, concatenates back to the
list. -/
theorem chunkListF_join {α : Type} (cap : Nat) :
    ∀ (fuel : Nat) (l : List α), l.length ≤ fuel →
      (chunkListF cap fuel l).flatten = l := by
  intro fuel
  induction fuel with
  | zero =>
    intro l hl
    cases l with
    | nil => simp [chunkListF]
    | cons a rest => simp at hl
  | succ n ih =>
    intro l hl
    cases l with
    | nil => simp [chunkListF]
    | cons a rest =>
      rw [chunkListF, List.flatten_cons]
      rw [ih (rest.drop (cap - 1)) (by simp at hl ⊢; omega)]
      simp [List.take_append_drop]

/-- Chunks produced by `chunkListF` are non-empty. -/
theorem chunkListF_ne_nil {α : Type} (cap : Nat) :
    ∀ (fuel : Nat) (l : List α) (c : List α),
      c ∈ chunkListF cap fuel l → c ≠ [] := by
  intro fuel
  induction fuel with
  | zero => intro l c hc; simp [chunkListF] at hc
  | succ n ih =>
    intro l c hc
    cases l with
    | nil => simp [chunkListF] at hc
    | cons a rest =>
      rw [chunkListF] at hc
      rcases List.mem_cons.mp hc with h | h
      · rw [h]; simp
      · exact ih _ c h

/-- C7: the fingerprint computation is deterministic — any two valid
chunkings of the same content (here below the `u32` limit, where the
computation returns instead of panicking; cf. C9) yield the same
fingerprint, equal to the CRC-32 of the content paired with the
content's length, and `compute_bytes` agrees; in particular the `size`
field always equals the content's byte length. -/
theorem C7_fingerprint_deterministic (content : List Nat)
    (chunks1 chunks2 : List (List Nat))
    (h1 : validChunking chunks1 content) (h2 : validChunking chunks2 content)
    (hlen : content.length < U32_LIMIT) :
    compute_reader content.length chunks1 =
      some (ResourceId.mk content.length (crc32 content)) ∧
    compute_reader content.length chunks1 =
      compute_reader content.length chunks2 ∧
    compute_bytes content =
      some (ResourceId.mk content.length (crc32 content)) := by
  have e1 := compute_reader_valid content chunks1 h1 hlen
  have e2 := compute_reader_valid content chunks2 h2 hlen
  refine ⟨e1, e1.trans e2.symm, ?_⟩
  unfold compute_bytes chunkList
  exact compute_reader_valid content _
    ⟨chunkListF_join BUFFER_CAPACITY content.length content (Nat.le_refl _),
      fun c hc => chunkListF_ne_nil BUFFER_CAPACITY content.length content c hc⟩
    hlen

/-- Witness for C7 on concrete content chunked two different ways. -/
theorem C7_fingerprint_deterministic_witness :
    compute_reader ([1, 2, 3] : List Nat).length [[1], [2, 3]] =
      some (ResourceId.mk ([1, 2, 3] : List Nat).length (crc32 [1, 2, 3])) ∧
    compute_reader ([1, 2, 3] : List Nat).length [[1], [2, 3]] =
      compute_reader ([1, 2, 3] : List Nat).length [[1, 2, 3]] ∧
    compute_bytes [1, 2, 3] =
      some (ResourceId.mk ([1, 2, 3] : List Nat).length (crc32 [1, 2, 3])) :=
  C7_fingerprint_deterministic [1, 2, 3] [[1], [2, 3]] [[1, 2, 3]]
    (by constructor <;> decide) (by constructor <;> decide) (by decide)

/-- C9: declaring a size of at least `2 ^ 32` always panics — the `u32`
conversion of `data_size` is unwrapped — so `compute_reader` (and hence
`compute_bytes` on content of such length) never returns; while for
content below `2 ^ 32` bytes declared at its true length, the
computation never panics and returns a fingerprint. -/
theorem C9_fingerprint_u32_panic :
    (∀ (n : Nat) (chunks : List (List Nat)), U32_LIMIT ≤ n →
      compute_reader n chunks = none) ∧
    (∀ bytes : List Nat, U32_LIMIT ≤ bytes.length →
      compute_bytes bytes = none) ∧
    (∀ (content : List Nat) (chunks : List (List Nat)),
      validChunking chunks content → content.length < U32_LIMIT →
      (compute_reader content.length chunks).isSome = true) := by
  have hnone : ∀ (n : Nat) (chunks : List (List Nat)), U32_LIMIT ≤ n →
      compute_reader n chunks = none := by
    intro n chunks hn
    unfold compute_reader
    cases compute_loop 0xFFFFFFFF 0 chunks with
    | none => rfl
    | some p => simp [if_pos hn]
  refine ⟨hnone, fun bytes hb => hnone _ _ hb, ?_⟩
  intro content chunks hv hlen
  rw [compute_reader_valid content chunks hv hlen]
  rfl

/-- Witness for C9: a declared size of `2 ^ 32` panics even on an empty
stream; content of length 3 declared as 3 returns a fingerprint. -/
theorem C9_fingerprint_u32_panic_witness :
    compute_reader U32_LIMIT [] = none ∧
    (compute_reader ([1, 2, 3] : List Nat).length [[1, 2, 3]]).isSome = true :=
  ⟨C9_fingerprint_u32_panic.1 U32_LIMIT [] (Nat.le_refl _),
   C9_fingerprint_u32_panic.2.2 [1, 2, 3] [[1, 2, 3]]
     (by constructor <;> decide) (by decide)⟩

/-! ## Merge (fs-storage/src/file_storage.rs, `merge_from`)

`merge_from` iterates the other map's entries in order: a key already
present locally is replaced with `combine(existing, other)`, an absent
key is inserted as-is.  `BTreeMap<K, V>` is embedded as an association
list with pairwise-distinct keys; map lookup is `lookupA` and map
equality is pointwise equality of lookups. -/

/-- Assoc-list embedding of `BTreeMap::get`. -/
def lookupA {κ ν : Type} [DecidableEq κ] (k : κ) : List (κ × ν) → Option ν
  | [] => none
  | (k', v) :: rest => if k' = k then some v else lookupA k rest

/-- Embeds `merge_from` (fs-storage/src/file_storage.rs, lines 235–250):
fold over the other store's entries; on each, look the key up locally
and either `set` the combined value or `set` the other value. -/
def merge_from {κ ν : Type} [DecidableEq κ] (combine : ν → ν → ν)
    (self other : List (κ × ν)) : List (κ × ν) :=
  other.foldl
    (fun acc kv =>
      match lookupA kv.1 acc with
      | some existing => insertA kv.1 (combine existing kv.2) acc
      | none => insertA kv.1 kv.2 acc)
    self

/-- Pointwise description of a merged entry, as the claim words it: a key
in only one map keeps that map's value, a key in both holds the combined
value. -/
def combineOpt {ν : Type} (combine : ν → ν → ν) :
    Option ν → Option ν → Option ν
  | some a, some b => some (combine a b)
  | some a, none => some a
  | none, some b => some b
  | none, none => none

theorem lookupA_insertA_self {κ ν : Type} [DecidableEq κ] (k : κ) (v : ν)
    (m : List (κ × ν)) : lookupA k (insertA k v m) = some v := by
  induction m with
  | nil => simp [insertA, lookupA]
  | cons p rest ih =>
    obtain ⟨k', v'⟩ := p
    by_cases h : k' = k
    · simp [insertA, h, lookupA]
    · simp [insertA, h, lookupA, ih]

theorem lookupA_insertA_ne {κ ν : Type} [DecidableEq κ] {k k' : κ} (v : ν)
    (m : List (κ × ν)) (h : k' ≠ k) :
    lookupA k (insertA k' v m) = lookupA k m := by
  induction m with
  | nil => simp [insertA, lookupA, h]
  | cons p rest ih =>
    obtain ⟨a, b⟩ := p
    by_cases h2 : a = k'
    · subst h2
      simp [insertA, lookupA, h]
    · simp only [insertA, if_neg h2, lookupA]
      by_cases h3 : a = k
      · simp [h3]
      · simp [h3, ih]

theorem lookupA_eq_none {κ ν : Type} [DecidableEq κ] {k : κ}
    {m : List (κ × ν)} (h : k ∉ m.map Prod.fst) : lookupA k m = none := by
  induction m with
  | nil => rfl
  | cons p rest ih =>
    obtain ⟨a, b⟩ := p
    have ha : a ≠ k := by
      intro hh
      exact h (by simp [hh])
    have hrest : k ∉ rest.map Prod.fst := by
      intro hh
      exact h (by simp [hh])
    simp [lookupA, ha, ih hrest]

/-- The entry a key holds after `merge_from`: the combination of its
local and other values, where the other map's keys are pairwise
distinct (the `BTreeMap` invariant). -/
theorem merge_from_lookup {κ ν : Type} [DecidableEq κ] (combine : ν → ν → ν)
    (self other : List (κ × ν)) (hnd : (other.map Prod.fst).Nodup) (k : κ) :
    lookupA k (merge_from combine self other) =
      combineOpt combine (lookupA k self) (lookupA k other) := by
  induction other generalizing self with
  | nil =>
    cases h : lookupA k self <;> simp [merge_from, lookupA, combineOpt, h]
  | cons p rest ih =>
    obtain ⟨k0, v0⟩ := p
    simp at hnd
    have hstep : merge_from combine self ((k0, v0) :: rest) =
        merge_from combine
          (match lookupA k0 self with
           | some existing => insertA k0 (combine existing v0) self
           | none => insertA k0 v0 self) rest := rfl
    rw [hstep, ih _ hnd.2]
    by_cases hk : k0 = k
    · subst hk
      have hrest : lookupA k0 rest = none := by
        apply lookupA_eq_none
        intro hmem
        obtain ⟨⟨a, b⟩, hab, hfst⟩ := List.mem_map.mp hmem
        cases hfst
        exact absurd hab (hnd.1 b)
      cases hself : lookupA k0 self with
      | some e =>
          simp [hself, lookupA_insertA_self, lookupA, combineOpt, hrest]
      | none =>
          simp [hself, lookupA_insertA_self, lookupA, combineOpt, hrest]
    · have hacc : lookupA k
          (match lookupA k0 self with
           | some existing => insertA k0 (combine existing v0) self
           | none => insertA k0 v0 self) = lookupA k self := by
        cases hself : lookupA k0 self with
        | some e => simp [hself, lookupA_insertA_ne _ _ hk]
        | none => simp [hself, lookupA_insertA_ne _ _ hk]
      rw [hacc]
      have : lookupA k ((k0, v0) :: rest) = lookupA k rest := by
        simp [lookupA, hk]
      rw [this]

/-- C8: with a commutative `combine`, merging is symmetric — for every
key, the entry map of `A.merge_from(B)` agrees with that of
`B.merge_from(A)`; and each merged entry is the other value for a key
absent locally, the local value for a key absent in the other map, and
`combine(local, other)` for a key present in both. -/
theorem C8_merge_commutative {κ ν : Type} [DecidableEq κ]
    (combine : ν → ν → ν) (hcomm : ∀ a b, combine a b = combine b a)
    (A B : List (κ × ν)) (hA : (A.map Prod.fst).Nodup)
    (hB : (B.map Prod.fst).Nodup) (k : κ) :
    lookupA k (merge_from combine A B) =
      combineOpt combine (lookupA k A) (lookupA k B) ∧
    lookupA k (merge_from combine A B) =
      lookupA k (merge_from combine B A) := by
  refine ⟨merge_from_lookup combine A B hB k, ?_⟩
  rw [merge_from_lookup combine A B hB k, merge_from_lookup combine B A hA k]
  cases lookupA k A <;> cases lookupA k B <;> simp [combineOpt, hcomm]

/-- Witness for C8 on the stores of the repository's `test_monoid_combine`
test, with addition as the combine operation. -/
theorem C8_merge_commutative_witness :
    lookupA 1 (merge_from Nat.add [(1, 2), (2, 6)] [(1, 3), (3, 9)]) =
      combineOpt Nat.add (lookupA 1 [(1, 2), (2, 6)])
        (lookupA 1 [(1, 3), (3, 9)]) ∧
    lookupA 1 (merge_from Nat.add [(1, 2), (2, 6)] [(1, 3), (3, 9)]) =
      lookupA 1 (merge_from Nat.add [(1, 3), (3, 9)] [(1, 2), (2, 6)]) :=
  C8_merge_commutative Nat.add Nat.add_comm [(1, 2), (2, 6)] [(1, 3), (3, 9)]
    (by decide) (by decide) 1

/-! ## Drop of the legacy storage (src/storage/file_storage.rs, `Drop`)

Dropping a legacy `FileStorage` runs `fs::remove_file(&self.path)`
unconditionally; a failure is only logged.  The filesystem is a map from
paths to contents; the drop handler's effect is removal at exactly the
instance's own path. -/

/-- Embeds the effect of `Drop for FileStorage` (lines 179–189) on the
filesystem: the file at `self.path` is removed when `remove_file`
succeeds (`removeOk`); on failure the error is logged and the filesystem
is untouched; no other path is involved. -/
def drop_file_storage {π γ : Type} [DecidableEq π] (fsys : π → Option γ)
    (path : π) (removeOk : Bool) : π → Option γ :=
  fun q =>
    if q = path then (if removeOk then none else fsys q) else fsys q

/-- C10: dropping a legacy `FileStorage` deletes its backing file (when
removal succeeds), a removal failure leaves the filesystem unchanged
(the error is only logged, never propagated), and every path other than
the instance's own is untouched in all cases. -/
theorem C10_drop_deletes_backing_file {π γ : Type} [DecidableEq π]
    (fsys : π → Option γ) (path : π) (removeOk : Bool) :
    (removeOk = true → drop_file_storage fsys path removeOk path = none) ∧
    (removeOk = false →
      drop_file_storage fsys path removeOk path = fsys path) ∧
    (∀ q, q ≠ path → drop_file_storage fsys path removeOk q = fsys q) := by
  refine ⟨fun h => ?_, fun h => ?_, fun q hq => ?_⟩
  · simp [drop_file_storage, h]
  · simp [drop_file_storage, h]
  · simp [drop_file_storage, hq]

/-- Witness for C10 on a concrete two-file filesystem. -/
theorem C10_drop_deletes_backing_file_witness :
    drop_file_storage (fun q : Nat => some q) 0 true 0 = none ∧
    drop_file_storage (fun q : Nat => some q) 0 false 0 = some 0 ∧
    drop_file_storage (fun q : Nat => some q) 0 true 1 = some 1 :=
  ⟨(C10_drop_deletes_backing_file (fun q : Nat => some q) 0 true).1 rfl,
   (C10_drop_deletes_backing_file (fun q : Nat => some q) 0 false).2.1 rfl,
   (C10_drop_deletes_backing_file (fun q : Nat => some q) 0 true).2.2 1
     (by decide)⟩

end ArkRust
